import Mathlib

/-!
Verification of the surface-decomposition module (`surface.py`).

The module splits a square grid of height samples into a low-frequency
("waviness") and a high-frequency ("roughness") component using a DFT-based
low-pass filter, then derives per-row mean-absolute metrics.

The embedding below models the numerics over the real and complex numbers:
rows are lists of reals, spectra are lists of complex numbers, and the
discrete Fourier transform follows numpy's convention
(`X k = sum_j x j * exp (-2*pi*I*j*k/m)`, inverse scaled by `1/m`).
Fallible steps (the stop-index scan, numpy's reshape) return `Option`:
`none` models the Python-level error (unbound local / ValueError).
-/

namespace SurfaceSpec

/-- Mirror padding: `profile = row[::-1] + row + row[::-1]` (lines 97-101). -/
def mirror_extend (row : List ℝ) : List ℝ := row.reverse ++ row ++ row.reverse

/-- numpy.fft.fft: forward DFT of a length-`m` complex list,
bin `k` is `sum_j x_j * exp (-2*pi*I*j*k/m)` (line 103). -/
noncomputable def fft (x : List ℂ) : List ℂ :=
  (List.range x.length).map (fun k =>
    ∑ j ∈ Finset.range x.length,
      x.getD j 0 * Complex.exp (-(2 * Real.pi * Complex.I) * ((j * k : ℕ) : ℂ) / (x.length : ℂ)))

/-- numpy.fft.ifft: inverse DFT, entry `t` is
`(sum_k x_k * exp (2*pi*I*k*t/m)) / m` (line 118). -/
noncomputable def ifft (x : List ℂ) : List ℂ :=
  (List.range x.length).map (fun t =>
    (∑ k ∈ Finset.range x.length,
      x.getD k 0 * Complex.exp ((2 * Real.pi * Complex.I) * ((k * t : ℕ) : ℂ) / (x.length : ℂ)))
      / (x.length : ℂ))

/-- The slice assignment `f[1:-1] = f[1:-1]*2` (line 104): every bin except
index 0 and the final index is doubled. -/
noncomputable def double_middle (f : List ℂ) : List ℂ :=
  (List.range f.length).map (fun k =>
    if 0 < k ∧ k + 1 < f.length then 2 * f.getD k 0 else f.getD k 0)

/-- The slice assignment `filtered[stop_index:-1] = 0` (line 116): entries from
`stop` up to but excluding the last entry are zeroed. -/
noncomputable def filter_spectrum (stop : ℕ) (f : List ℂ) : List ℂ :=
  (List.range f.length).map (fun k =>
    if stop ≤ k ∧ k + 1 < f.length then 0 else f.getD k 0)

/-- The scan `for j in range(1, npr)` (lines 107-113): starting at `j`, with
`fuel` iterations left, return the first index whose candidate wavelength
`2*(3*width)/j` is at most the cutoff; `none` models the unbound
`stop_index` (Python raises `UnboundLocalError` at line 116). -/
noncomputable def find_stop_aux (w c : ℝ) : ℕ → ℕ → Option ℕ
  | 0, _ => none
  | fuel + 1, j => if 2 * (3 * w) / (j : ℝ) ≤ c then some j else find_stop_aux w c fuel (j + 1)

/-- Stop-index search over `j = 1, …, n-1` for a row of length `n`. -/
noncomputable def find_stop (n : ℕ) (w c : ℝ) : Option ℕ := find_stop_aux w c (n - 1) 1

/-- The body of `parse_waviness` for one row once the stop index is known
(lines 94-119): mirror-pad, transform, double the middle bins, zero the
high band, inverse-transform, take real parts, extract the middle third. -/
noncomputable def waviness_of_stop (row : List ℝ) (stop : ℕ) : List ℝ :=
  ((((ifft (filter_spectrum stop (double_middle
      (fft ((mirror_extend row).map Complex.ofReal))))).map Complex.re).drop
    row.length).take row.length)

/-- One iteration of the `parse_waviness` row loop: fails (Python crash) iff
the stop-index scan finds no admissible frequency index. -/
noncomputable def parse_waviness_row (cutoff width : ℝ) (row : List ℝ) : Option (List ℝ) :=
  (find_stop row.length width cutoff).map (waviness_of_stop row)

/-- One iteration of the `parse_roughness` loop (lines 129-131):
`primary[i] - waviness[i]`, elementwise. -/
noncomputable def parse_roughness_row (cutoff width : ℝ) (row : List ℝ) : Option (List ℝ) :=
  (parse_waviness_row cutoff width row).map (fun wv => List.zipWith (fun a b => a - b) row wv)

/-- `Wa` for one row (lines 142-143): `sum(abs(waviness[i]))/npr`;
for a grid row, `npr` equals the row length. -/
noncomputable def Wa_row (cutoff width : ℝ) (row : List ℝ) : Option ℝ :=
  (parse_waviness_row cutoff width row).map
    (fun wv => ((wv.map (fun x => |x|)).sum) / (row.length : ℝ))

/-- `Ra` for one row (lines 144-145): `sum(abs(roughness[i]))/npr`. -/
noncomputable def Ra_row (cutoff width : ℝ) (row : List ℝ) : Option ℝ :=
  (parse_roughness_row cutoff width row).map
    (fun rv => ((rv.map (fun x => |x|)).sum) / (row.length : ℝ))

/-- `numpy.reshape(primary, (npr, npr))` seen as producing the list of rows:
row `i` is the slice `data[i*n : i*n+n]`. -/
def reshape (n : ℕ) (xs : List ℝ) : List (List ℝ) :=
  (List.range n).map (fun i => (xs.drop (i * n)).take n)

/-- The state produced by a successful `Surface.__init__`. -/
structure Surface where
  primary : List (List ℝ)
  waviness : List (List ℝ)
  roughness : List (List ℝ)
  Wa : List ℝ
  Ra : List ℝ
  npr : ℕ

/-- `Surface.__init__` for already-parsed data (lines 62-72): derive
`npr = int(sqrt(len))`; `numpy.reshape` raises unless the count is exactly
`npr*npr` (modelled by `none`); then run the waviness filter row by row
(`none` if the stop scan fails), subtract for roughness, and aggregate
the per-row metrics. -/
noncomputable def mkSurface (data : List ℝ) (cutoff width : ℝ) : Option Surface :=
  let n := Nat.sqrt data.length
  if data.length = n * n then
    let rows := reshape n data
    (rows.mapM (parse_waviness_row cutoff width)).map (fun wav =>
      let rough := List.zipWith (fun p wv => List.zipWith (fun a b => a - b) p wv) rows wav
      { primary := rows, waviness := wav, roughness := rough,
        Wa := wav.map (fun r => ((r.map (fun x => |x|)).sum) / (n : ℝ)),
        Ra := rough.map (fun r => ((r.map (fun x => |x|)).sum) / (n : ℝ)),
        npr := n })
  else none

/-! ### Basic index and length lemmas -/

theorem rangeMap_length {α : Type} (n : ℕ) (g : ℕ → α) :
    ((List.range n).map g).length = n := by
  simp

theorem rangeMap_getD {α : Type} (n k : ℕ) (g : ℕ → α) (d : α) :
    ((List.range n).map g).getD k d = if k < n then g k else d := by
  by_cases h : k < n
  · rw [if_pos h, List.getD_eq_getElem?_getD, List.getElem?_map, List.getElem?_range h]
    rfl
  · rw [if_neg h, List.getD_eq_getElem?_getD, List.getElem?_map]
    rw [List.getElem?_eq_none (by simpa using Nat.le_of_not_lt h)]
    rfl

theorem fft_length (x : List ℂ) : (fft x).length = x.length := by
  simp [fft]

theorem ifft_length (x : List ℂ) : (ifft x).length = x.length := by
  simp [ifft]

theorem double_middle_length (f : List ℂ) : (double_middle f).length = f.length := by
  simp [double_middle]

theorem filter_spectrum_length (s : ℕ) (f : List ℂ) :
    (filter_spectrum s f).length = f.length := by
  simp [filter_spectrum]

theorem mirror_extend_length (row : List ℝ) :
    (mirror_extend row).length = 3 * row.length := by
  simp [mirror_extend]; ring

theorem waviness_of_stop_length (row : List ℝ) (s : ℕ) :
    (waviness_of_stop row s).length = row.length := by
  unfold waviness_of_stop
  rw [List.length_take, List.length_drop, List.length_map, ifft_length,
    filter_spectrum_length, double_middle_length, fft_length, List.length_map,
    mirror_extend_length]
  omega

theorem fft_getD (x : List ℂ) (k : ℕ) (hk : k < x.length) :
    (fft x).getD k 0 =
      ∑ j ∈ Finset.range x.length,
        x.getD j 0 * Complex.exp (-(2 * Real.pi * Complex.I) * ((j * k : ℕ) : ℂ) / (x.length : ℂ)) := by
  rw [fft, rangeMap_getD, if_pos hk]

theorem ifft_getD (x : List ℂ) (t : ℕ) (ht : t < x.length) :
    (ifft x).getD t 0 =
      (∑ k ∈ Finset.range x.length,
        x.getD k 0 * Complex.exp ((2 * Real.pi * Complex.I) * ((k * t : ℕ) : ℂ) / (x.length : ℂ)))
        / (x.length : ℂ) := by
  rw [ifft, rangeMap_getD, if_pos ht]

theorem double_middle_getD (f : List ℂ) (k : ℕ) :
    (double_middle f).getD k 0 =
      if 0 < k ∧ k + 1 < f.length then 2 * f.getD k 0 else f.getD k 0 := by
  by_cases hk : k < f.length
  · rw [double_middle, rangeMap_getD, if_pos hk]
  · rw [double_middle, rangeMap_getD, if_neg hk]
    have h1 : ¬(0 < k ∧ k + 1 < f.length) := by omega
    rw [if_neg h1, List.getD_eq_getElem?_getD, List.getElem?_eq_none (by omega)]
    rfl

theorem filter_spectrum_getD (s : ℕ) (f : List ℂ) (k : ℕ) :
    (filter_spectrum s f).getD k 0 =
      if s ≤ k ∧ k + 1 < f.length then 0 else f.getD k 0 := by
  by_cases hk : k < f.length
  · rw [filter_spectrum, rangeMap_getD, if_pos hk]
  · rw [filter_spectrum, rangeMap_getD, if_neg hk]
    have h1 : ¬(s ≤ k ∧ k + 1 < f.length) := by omega
    rw [if_neg h1, List.getD_eq_getElem?_getD, List.getElem?_eq_none (by omega)]
    rfl

/-! ### Stop-index search: characterization -/

theorem find_stop_aux_spec (w c : ℝ) :
    ∀ (fuel j s : ℕ), find_stop_aux w c fuel j = some s →
      j ≤ s ∧ s < j + fuel ∧ 2 * (3 * w) / (s : ℝ) ≤ c ∧
        ∀ i, j ≤ i → i < s → ¬(2 * (3 * w) / (i : ℝ) ≤ c) := by
  intro fuel
  induction fuel with
  | zero => intro j s h; simp [find_stop_aux] at h
  | succ fuel ih =>
    intro j s h
    rw [find_stop_aux] at h
    by_cases hle : 2 * (3 * w) / (j : ℝ) ≤ c
    · rw [if_pos hle] at h
      have hs : j = s := by simpa using h
      subst hs
      exact ⟨le_refl j, by omega, hle, fun i h1 h2 => by omega⟩
    · rw [if_neg hle] at h
      obtain ⟨h1, h2, h3, h4⟩ := ih (j + 1) s h
      refine ⟨by omega, by omega, h3, fun i hi1 hi2 => ?_⟩
      rcases Nat.eq_or_lt_of_le hi1 with heq | hlt
      · subst heq; exact hle
      · exact h4 i hlt hi2

theorem find_stop_aux_eq_none (w c : ℝ) :
    ∀ (fuel j : ℕ), (∀ i, j ≤ i → i < j + fuel → ¬(2 * (3 * w) / (i : ℝ) ≤ c)) →
      find_stop_aux w c fuel j = none := by
  intro fuel
  induction fuel with
  | zero => intro j _; rfl
  | succ fuel ih =>
    intro j h
    rw [find_stop_aux, if_neg (h j (le_refl j) (by omega))]
    exact ih (j + 1) (fun i h1 h2 => h i (by omega) (by omega))

theorem find_stop_spec (n : ℕ) (w c : ℝ) (s : ℕ) (h : find_stop n w c = some s) :
    1 ≤ s ∧ s < n ∧ 2 * (3 * w) / (s : ℝ) ≤ c ∧
      ∀ i : ℕ, 1 ≤ i → 2 * (3 * w) / (i : ℝ) ≤ c → s ≤ i := by
  obtain ⟨h1, h2, h3, h4⟩ := find_stop_aux_spec w c (n - 1) 1 s h
  have hn : 1 ≤ n - 1 := by omega
  refine ⟨h1, by omega, h3, fun i hi1 hi2 => ?_⟩
  by_contra hlt
  exact h4 i hi1 (by omega) hi2

theorem find_stop_eq_none (n : ℕ) (w c : ℝ)
    (h : ∀ j, 1 ≤ j → j < n → ¬(2 * (3 * w) / (j : ℝ) ≤ c)) :
    find_stop n w c = none := by
  exact find_stop_aux_eq_none w c (n - 1) 1 (fun i h1 h2 => h i h1 (by omega))

/-! ### Claims about the stop-index scan and the low-pass filter -/

/-- C3: for a row the waviness computation actually filters, the candidate
wavelength at 1-indexed frequency index `j` is `2*(3*sample_width)/j`; the
stop index is the smallest `j ≥ 1` whose candidate wavelength is at most the
cutoff; after filtering, every spectrum entry with index at least the stop
index and strictly before the last entry is zero, and every entry below the
stop index as well as the very last entry keeps its pre-filter value. -/
theorem C3_stop_index_and_filter (n : ℕ) (w c : ℝ) (s : ℕ)
    (h : find_stop n w c = some s) (j : ℕ) (hj : 1 ≤ j) (f : List ℂ) (k : ℕ) :
    (1 ≤ s ∧ 2 * (3 * w) / (s : ℝ) ≤ c) ∧
    (2 * (3 * w) / (j : ℝ) ≤ c → s ≤ j) ∧
    (s ≤ k → k + 1 < f.length → (filter_spectrum s f).getD k 0 = 0) ∧
    (k < s ∨ k + 1 = f.length → (filter_spectrum s f).getD k 0 = f.getD k 0) := by
  obtain ⟨h1, h2, h3, h4⟩ := find_stop_spec n w c s h
  refine ⟨⟨h1, h3⟩, fun hcj => h4 j hj hcj, fun hk1 hk2 => ?_, fun hk => ?_⟩
  · rw [filter_spectrum_getD, if_pos ⟨hk1, hk2⟩]
  · rcases hk with hk | hk
    · rw [filter_spectrum_getD, if_neg (by omega)]
    · rw [filter_spectrum_getD, if_neg (by omega)]

/-- C3 witness: instantiated at `n = 4`, `w = 1`, `c = 3` (stop index 2),
probe index `j = 6`, spectrum `[1,2,3,0,5]`, entry `k = 3`. -/
theorem C3_stop_index_and_filter_witness :
    ((1 ≤ 2 ∧ 2 * (3 * (1 : ℝ)) / ((2 : ℕ) : ℝ) ≤ 3) ∧
    (2 * (3 * (1 : ℝ)) / ((6 : ℕ) : ℝ) ≤ 3 → 2 ≤ 6) ∧
    (2 ≤ 3 → 3 + 1 < ([1, 2, 3, 0, 5] : List ℂ).length →
      (filter_spectrum 2 ([1, 2, 3, 0, 5] : List ℂ)).getD 3 0 = 0) ∧
    (3 < 2 ∨ 3 + 1 = ([1, 2, 3, 0, 5] : List ℂ).length →
      (filter_spectrum 2 ([1, 2, 3, 0, 5] : List ℂ)).getD 3 0 =
        ([1, 2, 3, 0, 5] : List ℂ).getD 3 0)) :=
  C3_stop_index_and_filter 4 1 3 2 (by norm_num [find_stop, find_stop_aux])
    6 (by norm_num) [1, 2, 3, 0, 5] 3

/-- C7: when no frequency index in the scanned range `1 ≤ j < N` satisfies
`2*(3*width)/j ≤ cutoff`, the waviness filter for that row reports the fatal
configuration error (`none`, modelling the unbound `stop_index` crash) and
does not return a partial or defaulted row. -/
theorem C7_cutoff_unreachable (c w : ℝ) (row : List ℝ)
    (h : ∀ j : ℕ, 1 ≤ j → j < row.length → ¬(2 * (3 * w) / (j : ℝ) ≤ c)) :
    parse_waviness_row c w row = none := by
  rw [parse_waviness_row, find_stop_eq_none row.length w c h]
  rfl

/-- C7 witness: row length 4, width 1, cutoff 1 — all candidate wavelengths
(6, 3, 2) exceed the cutoff, so the filter fails. -/
theorem C7_cutoff_unreachable_witness :
    parse_waviness_row 1 1 ([1, 2, 3, 4] : List ℝ) = none := by
  refine C7_cutoff_unreachable 1 1 [1, 2, 3, 4] ?_
  intro j h1 h2
  simp only [List.length_cons, List.length_nil] at h2
  interval_cases j <;> norm_num

/-- C5 (amended): the roughness metric is not non-increasing in the cutoff;
the direction is reversed.  A larger cutoff yields a smaller-or-equal stop
index, so the waviness retains at most as many low-frequency bins and more
spectral content lands in roughness. -/
theorem C5_amended_stop_antitone (n : ℕ) (w c1 c2 : ℝ) (s1 s2 : ℕ)
    (hc : c1 ≤ c2) (h1 : find_stop n w c1 = some s1) (h2 : find_stop n w c2 = some s2) :
    s2 ≤ s1 := by
  obtain ⟨hs1a, _, hs1c, _⟩ := find_stop_spec n w c1 s1 h1
  obtain ⟨_, _, _, hmin⟩ := find_stop_spec n w c2 s2 h2
  exact hmin s1 hs1a (le_trans hs1c hc)

/-- C5 amended witness: row length 4, width 1: cutoff 3 gives stop index 2,
cutoff 6 gives stop index 1, and 1 ≤ 2. -/
theorem C5_amended_stop_antitone_witness : 1 ≤ 2 ∧
    find_stop 4 1 3 = some 2 ∧ find_stop 4 1 6 = some 1 := by
  have h1 : find_stop 4 1 3 = some 2 := by norm_num [find_stop, find_stop_aux]
  have h2 : find_stop 4 1 6 = some 1 := by norm_num [find_stop, find_stop_aux]
  exact ⟨C5_amended_stop_antitone 4 1 3 6 2 1 (by norm_num) h1 h2, h1, h2⟩

/-- C9 (amended): when the first candidate wavelength `2*(3*width)/1` is
already at most the cutoff, the stop index is 1 and filtering zeroes every
spectrum entry except the one at index 0 and the final entry; the final entry
keeps its pre-filter value, so the DC bin and the last bin both survive. -/
theorem C9_amended_dc_and_last_survive (n : ℕ) (w c : ℝ) (hn : 2 ≤ n)
    (hc : 2 * (3 * w) / (1 : ℝ) ≤ c) (f : List ℂ) (k : ℕ) :
    find_stop n w c = some 1 ∧
    (0 < k → k + 1 < f.length → (filter_spectrum 1 f).getD k 0 = 0) ∧
    ((filter_spectrum 1 f).getD 0 0 = f.getD 0 0) ∧
    (k + 1 = f.length → (filter_spectrum 1 f).getD k 0 = f.getD k 0) := by
  refine ⟨?_, fun hk1 hk2 => ?_, ?_, fun hk => ?_⟩
  · obtain ⟨m, hm⟩ : ∃ m, n - 1 = m + 1 := ⟨n - 2, by omega⟩
    rw [find_stop, hm, find_stop_aux, if_pos (by simpa using hc)]
  · rw [filter_spectrum_getD, if_pos ⟨hk1, hk2⟩]
  · rw [filter_spectrum_getD, if_neg (by omega)]
  · rw [filter_spectrum_getD, if_neg (by omega)]

/-- C9 amended witness: instantiated at `n = 4`, `w = 1`, `c = 6`,
spectrum `[2,5,7]`, entry `k = 1` (a zeroed middle bin). -/
theorem C9_amended_dc_and_last_survive_witness :
    find_stop 4 1 6 = some 1 ∧
    (0 < 1 → 1 + 1 < ([2, 5, 7] : List ℂ).length →
      (filter_spectrum 1 ([2, 5, 7] : List ℂ)).getD 1 0 = 0) ∧
    ((filter_spectrum 1 ([2, 5, 7] : List ℂ)).getD 0 0 = ([2, 5, 7] : List ℂ).getD 0 0) ∧
    (1 + 1 = ([2, 5, 7] : List ℂ).length →
      (filter_spectrum 1 ([2, 5, 7] : List ℂ)).getD 1 0 = ([2, 5, 7] : List ℂ).getD 1 0) :=
  C9_amended_dc_and_last_survive 4 1 6 (by norm_num) (by norm_num) [2, 5, 7] 1

/-- C2 counterexample: with the spec's concrete scenario (constant row of
eight 5s, sample width 100, cutoff 80) every candidate wavelength
`600/j, j = 1..7` exceeds 80, so the stop-index scan fails and the filter
errors out instead of producing the row `[5,5,5,5,5,5,5,5]`. -/
theorem C2_counterexample :
    parse_waviness_row 80 100 (List.replicate 8 (5 : ℝ)) = none ∧
    parse_waviness_row 80 100 (List.replicate 8 (5 : ℝ)) ≠
      some (List.replicate 8 (5 : ℝ)) := by
  have h : find_stop (List.replicate 8 (5 : ℝ)).length 100 80 = none := by
    norm_num [find_stop, find_stop_aux]
  have h2 : parse_waviness_row 80 100 (List.replicate 8 (5 : ℝ)) = none := by
    rw [parse_waviness_row, h]
    rfl
  exact ⟨h2, by rw [h2]; simp⟩

/-- C6 counterexample: two samples are not a perfect square; `numpy.reshape`
raises (modelled by `none`), so construction rejects the input instead of
silently truncating to a 1-by-1 grid. -/
theorem C6_counterexample : mkSurface ([1, 2] : List ℝ) 80 643 = none := by
  have hs : Nat.sqrt 2 = 1 := by
    symm
    rw [Nat.eq_sqrt]
    constructor <;> norm_num
  simp only [mkSurface]
  rw [if_neg (by simp only [List.length_cons, List.length_nil, hs]; norm_num)]

/-! ### mapM over Option and reshape lemmas -/

theorem mapM_option_length {α β : Type} (f : α → Option β) :
    ∀ (l : List α) (ys : List β), l.mapM f = some ys → ys.length = l.length := by
  intro l
  induction l with
  | nil => intro ys h; simp only [List.mapM_nil] at h; cases h; rfl
  | cons a l ih =>
    intro ys h
    rw [List.mapM_cons] at h
    cases hfa : f a with
    | none => rw [hfa] at h; simp at h
    | some b =>
      rw [hfa] at h
      cases hml : l.mapM f with
      | none => rw [hml] at h; simp at h
      | some bs =>
        rw [hml] at h
        simp only [Option.pure_def, Option.bind_eq_bind, Option.some_bind] at h
        cases h
        simp [ih bs hml]

theorem mapM_option_getD {α β : Type} (f : α → Option β) (da : α) (db : β) :
    ∀ (l : List α) (ys : List β), l.mapM f = some ys →
      ∀ i, i < l.length → f (l.getD i da) = some (ys.getD i db) := by
  intro l
  induction l with
  | nil => intro ys h i hi; simp at hi
  | cons a l ih =>
    intro ys h i hi
    rw [List.mapM_cons] at h
    cases hfa : f a with
    | none => rw [hfa] at h; simp at h
    | some b =>
      rw [hfa] at h
      cases hml : l.mapM f with
      | none => rw [hml] at h; simp at h
      | some bs =>
        rw [hml] at h
        simp only [Option.pure_def, Option.bind_eq_bind, Option.some_bind] at h
        cases h
        cases i with
        | zero => simpa using hfa
        | succ i =>
          simp only [List.getD_cons_succ]
          exact ih bs hml i (by simpa using hi)

theorem reshape_length (n : ℕ) (xs : List ℝ) : (reshape n xs).length = n := by
  simp [reshape]

theorem reshape_getD (n : ℕ) (xs : List ℝ) (i : ℕ) (hi : i < n) :
    (reshape n xs).getD i [] = (xs.drop (i * n)).take n := by
  rw [reshape, rangeMap_getD, if_pos hi]

theorem reshape_row_length (n : ℕ) (xs : List ℝ) (i : ℕ) (hi : i < n)
    (hlen : xs.length = n * n) : ((reshape n xs).getD i []).length = n := by
  rw [reshape_getD n xs i hi, List.length_take, List.length_drop, hlen]
  have h2 : (i + 1) * n ≤ n * n := Nat.mul_le_mul_right n hi
  have h3 : i * n + n ≤ n * n := by rw [Nat.succ_mul] at h2; omega
  omega

theorem getD_zipWith {α : Type} (f : α → α → α) :
    ∀ (l1 l2 : List α) (j : ℕ) (d : α), j < l1.length → j < l2.length →
      (List.zipWith f l1 l2).getD j d = f (l1.getD j d) (l2.getD j d) := by
  intro l1
  induction l1 with
  | nil => intro l2 j d h1 h2; simp at h1
  | cons a l1 ih =>
    intro l2 j d h1 h2
    cases l2 with
    | nil => simp at h2
    | cons b l2 =>
      cases j with
      | zero => rfl
      | succ j =>
        simp only [List.zipWith_cons_cons, List.getD_cons_succ]
        exact ih l2 j d (by simpa using h1) (by simpa using h2)

theorem getD_map {α β : Type} (f : α → β) :
    ∀ (l : List α) (j : ℕ) (d : α) (e : β), j < l.length →
      (l.map f).getD j e = f (l.getD j d) := by
  intro l
  induction l with
  | nil => intro j d e h; simp at h
  | cons a l ih =>
    intro j d e h
    cases j with
    | zero => rfl
    | succ j =>
      simp only [List.map_cons, List.getD_cons_succ]
      exact ih j d e (by simpa using h)

theorem parse_waviness_row_some_length (c w : ℝ) (row v : List ℝ)
    (h : parse_waviness_row c w row = some v) : v.length = row.length := by
  rw [parse_waviness_row] at h
  cases hfs : find_stop row.length w c with
  | none => rw [hfs] at h; simp at h
  | some s =>
    rw [hfs] at h
    simp only [Option.map_some'] at h
    cases h
    exact waviness_of_stop_length row s

theorem mkSurface_some (data : List ℝ) (c w : ℝ) (S : Surface)
    (h : mkSurface data c w = some S) :
    data.length = Nat.sqrt data.length * Nat.sqrt data.length ∧
    S.npr = Nat.sqrt data.length ∧
    S.primary = reshape S.npr data ∧
    S.primary.mapM (parse_waviness_row c w) = some S.waviness ∧
    S.roughness =
      List.zipWith (fun p wv => List.zipWith (fun a b => a - b) p wv) S.primary S.waviness ∧
    S.Wa = S.waviness.map (fun r => ((r.map (fun x => |x|)).sum) / (S.npr : ℝ)) ∧
    S.Ra = S.roughness.map (fun r => ((r.map (fun x => |x|)).sum) / (S.npr : ℝ)) := by
  simp only [mkSurface] at h
  by_cases hlen : data.length = Nat.sqrt data.length * Nat.sqrt data.length
  · rw [if_pos hlen] at h
    obtain ⟨wav, hmap, hgw⟩ := Option.map_eq_some'.mp h
    subst hgw
    exact ⟨hlen, rfl, rfl, hmap, rfl, rfl, rfl⟩
  · rw [if_neg hlen] at h
    simp at h

/-! ### Surface-level claims -/

/-- C1: for every successfully constructed surface, each roughness row is the
primary row minus the waviness row elementwise, so
`Waviness[i][j] + Roughness[i][j] = Primary[i][j]` holds exactly at every
position (out-of-range positions read the default 0 on both sides). -/
theorem C1_decomposition_identity (data : List ℝ) (c w : ℝ) (S : Surface)
    (h : mkSurface data c w = some S) (i j : ℕ) :
    (S.waviness.getD i []).getD j 0 + (S.roughness.getD i []).getD j 0 =
      (S.primary.getD i []).getD j 0 := by
  obtain ⟨hlen0, hnpr, hprim, hmap, hrough, _, _⟩ := mkSurface_some data c w S h
  have hlen : data.length = S.npr * S.npr := by rw [hnpr]; exact hlen0
  have hplen : S.primary.length = S.npr := by rw [hprim]; exact reshape_length _ data
  have hwlen : S.waviness.length = S.primary.length := mapM_option_length _ _ _ hmap
  by_cases hi : i < S.npr
  · have hip : i < S.primary.length := by omega
    have hiw : i < S.waviness.length := by omega
    have hwrow : parse_waviness_row c w (S.primary.getD i []) = some (S.waviness.getD i []) :=
      mapM_option_getD _ [] [] S.primary S.waviness hmap i hip
    have hprowlen : (S.primary.getD i []).length = S.npr := by
      rw [hprim, hnpr]
      exact reshape_row_length _ data i (by omega) hlen0
    have hwrowlen : (S.waviness.getD i []).length = S.npr := by
      rw [parse_waviness_row_some_length c w _ _ hwrow]
      exact hprowlen
    have hrrow : S.roughness.getD i [] =
        List.zipWith (fun a b => a - b) (S.primary.getD i []) (S.waviness.getD i []) := by
      rw [hrough]
      exact getD_zipWith _ S.primary S.waviness i [] hip hiw
    by_cases hj : j < S.npr
    · have hjp : j < (S.primary.getD i []).length := by omega
      have hjw : j < (S.waviness.getD i []).length := by omega
      rw [hrrow, getD_zipWith _ _ _ j 0 hjp hjw]
      ring
    · rw [hrrow,
        List.getD_eq_default _ _ (show (S.waviness.getD i []).length ≤ j by omega),
        List.getD_eq_default _ _ (by rw [List.length_zipWith]; omega),
        List.getD_eq_default _ _ (show (S.primary.getD i []).length ≤ j by omega)]
      norm_num
  · have hrlen : S.roughness.length = S.npr := by
      rw [hrough, List.length_zipWith]; omega
    rw [List.getD_eq_default _ _ (by omega : S.waviness.length ≤ i),
      List.getD_eq_default _ _ (by omega : S.roughness.length ≤ i),
      List.getD_eq_default _ _ (by omega : S.primary.length ≤ i)]
    norm_num

/-- C4: for every successfully constructed surface and every in-range row
index `i`, `Wa[i]` is the mean of the absolute values of the samples of
waviness row `i`, and `Ra[i]` is the mean of the absolute values of the
samples of roughness row `i`, the mean being taken over that single row
(the divisor is exactly that row's sample count). -/
theorem C4_metrics_are_single_row_means (data : List ℝ) (c w : ℝ) (S : Surface)
    (h : mkSurface data c w = some S) (i : ℕ) (hi : i < S.npr) :
    S.Wa.getD i 0 =
      (((S.waviness.getD i []).map (fun x => |x|)).sum) /
        (((S.waviness.getD i []).length : ℕ) : ℝ) ∧
    S.Ra.getD i 0 =
      (((S.roughness.getD i []).map (fun x => |x|)).sum) /
        (((S.roughness.getD i []).length : ℕ) : ℝ) := by
  obtain ⟨hlen0, hnpr, hprim, hmap, hrough, hWa, hRa⟩ := mkSurface_some data c w S h
  have hplen : S.primary.length = S.npr := by rw [hprim]; exact reshape_length _ data
  have hwlen : S.waviness.length = S.primary.length := mapM_option_length _ _ _ hmap
  have hip : i < S.primary.length := by omega
  have hiw : i < S.waviness.length := by omega
  have hwrow : parse_waviness_row c w (S.primary.getD i []) = some (S.waviness.getD i []) :=
    mapM_option_getD _ [] [] S.primary S.waviness hmap i hip
  have hprowlen : (S.primary.getD i []).length = S.npr := by
    rw [hprim, hnpr]
    exact reshape_row_length _ data i (by omega) hlen0
  have hwrowlen : (S.waviness.getD i []).length = S.npr := by
    rw [parse_waviness_row_some_length c w _ _ hwrow]
    exact hprowlen
  have hrlen : S.roughness.length = S.npr := by
    rw [hrough, List.length_zipWith]; omega
  have hrrow : S.roughness.getD i [] =
      List.zipWith (fun a b => a - b) (S.primary.getD i []) (S.waviness.getD i []) := by
    rw [hrough]
    exact getD_zipWith _ S.primary S.waviness i [] hip hiw
  have hrrowlen : (S.roughness.getD i []).length = S.npr := by
    rw [hrrow, List.length_zipWith]
    omega
  constructor
  · rw [hWa, getD_map _ S.waviness i [] 0 (by omega), hwrowlen]
  · rw [hRa, getD_map _ S.roughness i [] 0 (by omega), hrrowlen]

/-- C10: the per-row waviness filter depends only on that row, the cutoff,
and the sample width: two surfaces built with the same cutoff and width from
data of the same total length whose primary rows `i` coincide have identical
waviness rows `i`. -/
theorem C10_row_independence (d1 d2 : List ℝ) (c w : ℝ) (S1 S2 : Surface)
    (h1 : mkSurface d1 c w = some S1) (h2 : mkSurface d2 c w = some S2)
    (hlen : d1.length = d2.length) (i : ℕ)
    (hrow : S1.primary.getD i [] = S2.primary.getD i []) :
    S1.waviness.getD i [] = S2.waviness.getD i [] := by
  obtain ⟨_, hnpr1, hprim1, hmap1, _, _, _⟩ := mkSurface_some d1 c w S1 h1
  obtain ⟨_, hnpr2, hprim2, hmap2, _, _, _⟩ := mkSurface_some d2 c w S2 h2
  have hn : S1.npr = S2.npr := by rw [hnpr1, hnpr2, hlen]
  have hplen1 : S1.primary.length = S1.npr := by rw [hprim1]; exact reshape_length _ d1
  have hplen2 : S2.primary.length = S2.npr := by rw [hprim2]; exact reshape_length _ d2
  have hwlen1 : S1.waviness.length = S1.primary.length := mapM_option_length _ _ _ hmap1
  have hwlen2 : S2.waviness.length = S2.primary.length := mapM_option_length _ _ _ hmap2
  by_cases hi : i < S1.npr
  · have hv1 : parse_waviness_row c w (S1.primary.getD i []) = some (S1.waviness.getD i []) :=
      mapM_option_getD _ [] [] S1.primary S1.waviness hmap1 i (by omega)
    have hv2 : parse_waviness_row c w (S2.primary.getD i []) = some (S2.waviness.getD i []) :=
      mapM_option_getD _ [] [] S2.primary S2.waviness hmap2 i (by omega)
    rw [hrow] at hv1
    rw [hv2] at hv1
    exact (Option.some.inj hv1).symm
  · rw [List.getD_eq_default _ _ (by omega : S1.waviness.length ≤ i),
      List.getD_eq_default _ _ (by omega : S2.waviness.length ≤ i)]

/-! ### A concrete 2-by-2 surface (cutoff 6, width 1) for witnesses -/

theorem nat_sqrt_two : Nat.sqrt 2 = 1 := by
  symm
  rw [Nat.eq_sqrt]
  constructor <;> norm_num

/-- The surface `Surface.__init__` produces from the flat data `[a,b,c,d]`
with cutoff 6 and sample width 1 (stop index 1 for rows of length 2). -/
noncomputable def surf2x2 (a b c d : ℝ) : Surface where
  primary := [[a, b], [c, d]]
  waviness := [waviness_of_stop [a, b] 1, waviness_of_stop [c, d] 1]
  roughness :=
    [List.zipWith (fun x y => x - y) [a, b] (waviness_of_stop [a, b] 1),
     List.zipWith (fun x y => x - y) [c, d] (waviness_of_stop [c, d] 1)]
  Wa := [((waviness_of_stop [a, b] 1).map (fun x => |x|)).sum / ((2 : ℕ) : ℝ),
         ((waviness_of_stop [c, d] 1).map (fun x => |x|)).sum / ((2 : ℕ) : ℝ)]
  Ra := [((List.zipWith (fun x y => x - y) [a, b] (waviness_of_stop [a, b] 1)).map
            (fun x => |x|)).sum / ((2 : ℕ) : ℝ),
         ((List.zipWith (fun x y => x - y) [c, d] (waviness_of_stop [c, d] 1)).map
            (fun x => |x|)).sum / ((2 : ℕ) : ℝ)]
  npr := 2

theorem mkSurface_two (a b c d : ℝ) :
    mkSurface [a, b, c, d] 6 1 = some (surf2x2 a b c d) := by
  have hsq : Nat.sqrt 4 = 2 := by
    rw [show (4 : ℕ) = 2 * 2 from rfl, Nat.sqrt_eq]
  have hrow1 : parse_waviness_row 6 1 [a, b] = some (waviness_of_stop [a, b] 1) := by
    rw [parse_waviness_row]
    have hfs : find_stop ([a, b] : List ℝ).length 1 6 = some 1 := by
      norm_num [find_stop, find_stop_aux]
    rw [hfs]
    rfl
  have hrow2 : parse_waviness_row 6 1 [c, d] = some (waviness_of_stop [c, d] 1) := by
    rw [parse_waviness_row]
    have hfs : find_stop ([c, d] : List ℝ).length 1 6 = some 1 := by
      norm_num [find_stop, find_stop_aux]
    rw [hfs]
    rfl
  have hresh : reshape 2 [a, b, c, d] = [[a, b], [c, d]] := rfl
  simp only [mkSurface, List.length_cons, List.length_nil, hsq]
  rw [if_pos trivial, hresh]
  rw [show (([[a, b], [c, d]] : List (List ℝ)).mapM (parse_waviness_row 6 1)) =
      some [waviness_of_stop [a, b] 1, waviness_of_stop [c, d] 1] by
    rw [List.mapM_cons, hrow1, List.mapM_cons, hrow2, List.mapM_nil]
    rfl]
  rfl

/-- C1 witness: the identity instantiated at the surface built from
`[1,2,3,4]` with cutoff 6, width 1, at row 0, sample 0. -/
theorem C1_decomposition_identity_witness :
    ((surf2x2 1 2 3 4).waviness.getD 0 []).getD 0 0 +
      ((surf2x2 1 2 3 4).roughness.getD 0 []).getD 0 0 =
      ((surf2x2 1 2 3 4).primary.getD 0 []).getD 0 0 :=
  C1_decomposition_identity [1, 2, 3, 4] 6 1 (surf2x2 1 2 3 4) (mkSurface_two 1 2 3 4) 0 0

/-- C4 witness: the metric identity instantiated at the surface built from
`[1,2,3,4]` with cutoff 6, width 1, at row 0. -/
theorem C4_metrics_are_single_row_means_witness :
    (surf2x2 1 2 3 4).Wa.getD 0 0 =
      ((((surf2x2 1 2 3 4).waviness.getD 0 []).map (fun x => |x|)).sum) /
        ((((surf2x2 1 2 3 4).waviness.getD 0 []).length : ℕ) : ℝ) ∧
    (surf2x2 1 2 3 4).Ra.getD 0 0 =
      ((((surf2x2 1 2 3 4).roughness.getD 0 []).map (fun x => |x|)).sum) /
        ((((surf2x2 1 2 3 4).roughness.getD 0 []).length : ℕ) : ℝ) :=
  C4_metrics_are_single_row_means [1, 2, 3, 4] 6 1 (surf2x2 1 2 3 4)
    (mkSurface_two 1 2 3 4) 0 (by norm_num [surf2x2])

/-- C10 witness: surfaces from `[1,2,3,4]` and `[1,2,9,9]` (cutoff 6,
width 1) share primary row 0 `[1,2]`, hence share waviness row 0. -/
theorem C10_row_independence_witness :
    (surf2x2 1 2 3 4).waviness.getD 0 [] = (surf2x2 1 2 9 9).waviness.getD 0 [] :=
  C10_row_independence [1, 2, 3, 4] [1, 2, 9, 9] 6 1 (surf2x2 1 2 3 4) (surf2x2 1 2 9 9)
    (mkSurface_two 1 2 3 4) (mkSurface_two 1 2 9 9) rfl 0 rfl

/-- C6 (amended): the dimension is derived as the truncated integer square
root of the sample count, but when the count is not a perfect square the
reshape raises (`numpy.reshape` rejects a size mismatch), so construction
fails instead of silently discarding trailing samples. -/
theorem C6_amended_sqrt_dim_but_reshape_rejects (data : List ℝ) (c w : ℝ) :
    (data.length ≠ Nat.sqrt data.length * Nat.sqrt data.length →
      mkSurface data c w = none) ∧
    (∀ S : Surface, mkSurface data c w = some S → S.npr = Nat.sqrt data.length) := by
  constructor
  · intro hne
    simp only [mkSurface]
    rw [if_neg hne]
  · intro S hS
    exact (mkSurface_some data c w S hS).2.1

/-- C6 amended witness: `[1,2]` (count 2, truncated root 1) is rejected;
for the accepted `[1,2,3,4]` the dimension is `Nat.sqrt 4 = 2`. -/
theorem C6_amended_sqrt_dim_but_reshape_rejects_witness :
    mkSurface ([1, 2] : List ℝ) 80 643 = none ∧
    (surf2x2 1 2 3 4).npr = Nat.sqrt (([1, 2, 3, 4] : List ℝ).length) :=
  ⟨(C6_amended_sqrt_dim_but_reshape_rejects [1, 2] 80 643).1
      (by simp only [List.length_cons, List.length_nil, nat_sqrt_two]; norm_num),
   (C6_amended_sqrt_dim_but_reshape_rejects [1, 2, 3, 4] 6 1).2
      (surf2x2 1 2 3 4) (mkSurface_two 1 2 3 4)⟩

/-! ### C8: structure of the per-row waviness pipeline -/

/-- C8: for every row the waviness computation (1) pads to length `3N` as
row reversed ++ row ++ row reversed, (2) doubles every transform bin except
index 0 and the final bin before filtering, and (3) reconstructs the row as
the real part of the inverse transform of the filtered spectrum restricted
to positions `N` through `2N-1`, a row of length `N`. -/
theorem C8_pipeline_structure (c w : ℝ) (row : List ℝ) (s : ℕ)
    (hs : find_stop row.length w c = some s) (f : List ℂ) (k : ℕ) :
    parse_waviness_row c w row = some (waviness_of_stop row s) ∧
    mirror_extend row = row.reverse ++ row ++ row.reverse ∧
    (mirror_extend row).length = 3 * row.length ∧
    waviness_of_stop row s =
      ((((ifft (filter_spectrum s (double_middle
          (fft ((mirror_extend row).map Complex.ofReal))))).map Complex.re).drop
        row.length).take row.length) ∧
    (0 < k → k + 1 < f.length → (double_middle f).getD k 0 = 2 * f.getD k 0) ∧
    (k = 0 → (double_middle f).getD k 0 = f.getD k 0) ∧
    (k + 1 = f.length → (double_middle f).getD k 0 = f.getD k 0) ∧
    (waviness_of_stop row s).length = row.length := by
  refine ⟨?_, rfl, mirror_extend_length row, rfl, ?_, ?_, ?_,
    waviness_of_stop_length row s⟩
  · rw [parse_waviness_row, hs]
    rfl
  · intro h1 h2
    rw [double_middle_getD, if_pos ⟨h1, h2⟩]
  · intro h1
    subst h1
    rw [double_middle_getD, if_neg (by omega)]
  · intro h1
    rw [double_middle_getD, if_neg (by omega)]

/-- C8 witness: instantiated at the row `[1,2]` (cutoff 6, width 1, stop
index 1), probe spectrum `[2,5,7]`, probe bin `k = 1` (a doubled bin). -/
theorem C8_pipeline_structure_witness :
    parse_waviness_row 6 1 [1, 2] = some (waviness_of_stop [1, 2] 1) ∧
    mirror_extend [1, 2] = ([1, 2] : List ℝ).reverse ++ [1, 2] ++ ([1, 2] : List ℝ).reverse ∧
    (mirror_extend [1, 2]).length = 3 * ([1, 2] : List ℝ).length ∧
    waviness_of_stop [1, 2] 1 =
      ((((ifft (filter_spectrum 1 (double_middle
          (fft ((mirror_extend [1, 2]).map Complex.ofReal))))).map Complex.re).drop
        ([1, 2] : List ℝ).length).take ([1, 2] : List ℝ).length) ∧
    (0 < 1 → 1 + 1 < ([2, 5, 7] : List ℂ).length →
      (double_middle ([2, 5, 7] : List ℂ)).getD 1 0 = 2 * ([2, 5, 7] : List ℂ).getD 1 0) ∧
    ((1 : ℕ) = 0 → (double_middle ([2, 5, 7] : List ℂ)).getD 1 0 =
      ([2, 5, 7] : List ℂ).getD 1 0) ∧
    (1 + 1 = ([2, 5, 7] : List ℂ).length → (double_middle ([2, 5, 7] : List ℂ)).getD 1 0 =
      ([2, 5, 7] : List ℂ).getD 1 0) ∧
    (waviness_of_stop [1, 2] 1).length = ([1, 2] : List ℝ).length :=
  C8_pipeline_structure 6 1 [1, 2] 1 (by norm_num [find_stop, find_stop_aux]) [2, 5, 7] 1

/-! ### The transform of a constant row -/

theorem getD_replicate {α : Type} (a d : α) :
    ∀ (n i : ℕ), (List.replicate n a).getD i d = if i < n then a else d := by
  intro n
  induction n with
  | zero => intro i; simp
  | succ n ih =>
    intro i
    cases i with
    | zero => simp [List.replicate_succ]
    | succ i =>
      rw [List.replicate_succ, List.getD_cons_succ, ih i]
      simp only [Nat.add_lt_add_iff_right]

theorem root_of_unity_ne_one (m k : ℕ) (hk0 : 0 < k) (hk : k < m) :
    Complex.exp (-(2 * Real.pi * Complex.I) * (k : ℂ) / (m : ℂ)) ≠ 1 := by
  have hζ := Complex.isPrimitiveRoot_exp m (by omega)
  have hzeq : Complex.exp (-(2 * Real.pi * Complex.I) * (k : ℂ) / (m : ℂ)) =
      Complex.exp (2 * Real.pi * Complex.I / (m : ℂ)) ^ (-(k : ℤ)) := by
    rw [← Complex.exp_int_mul]
    congr 1
    push_cast
    ring
  rw [hzeq]
  intro hone
  rw [hζ.zpow_eq_one_iff_dvd, Int.dvd_neg] at hone
  have hle : (m : ℤ) ≤ (k : ℤ) := Int.le_of_dvd (by exact_mod_cast hk0) hone
  have : m ≤ k := by exact_mod_cast hle
  omega

theorem root_of_unity_pow (m k : ℕ) (hm : 0 < m) :
    Complex.exp (-(2 * Real.pi * Complex.I) * (k : ℂ) / (m : ℂ)) ^ m = 1 := by
  have hζ := Complex.isPrimitiveRoot_exp m (by omega)
  have hzeq : Complex.exp (-(2 * Real.pi * Complex.I) * (k : ℂ) / (m : ℂ)) =
      Complex.exp (2 * Real.pi * Complex.I / (m : ℂ)) ^ (-(k : ℤ)) := by
    rw [← Complex.exp_int_mul]
    congr 1
    push_cast
    ring
  rw [hzeq, ← zpow_natCast, ← zpow_mul]
  have hcomm : (-(k : ℤ)) * (m : ℤ) = (m : ℤ) * (-(k : ℤ)) := mul_comm _ _
  rw [hcomm, zpow_mul, zpow_natCast, hζ.pow_eq_one, one_zpow]

theorem fft_replicate_getD (m : ℕ) (a : ℝ) (k : ℕ) (hk : k < m) :
    (fft (List.replicate m (Complex.ofReal a))).getD k 0 =
      if k = 0 then (m : ℂ) * a else 0 := by
  have hlen : (List.replicate m (Complex.ofReal a)).length = m := List.length_replicate m _
  rw [fft_getD _ k (by rw [hlen]; exact hk), hlen]
  by_cases hk0 : k = 0
  · subst hk0
    rw [if_pos rfl]
    have hterm : ∀ j ∈ Finset.range m,
        (List.replicate m (Complex.ofReal a)).getD j 0 *
          Complex.exp (-(2 * Real.pi * Complex.I) * ((j * 0 : ℕ) : ℂ) / (m : ℂ)) = (a : ℂ) := by
      intro j hj
      rw [Finset.mem_range] at hj
      rw [getD_replicate, if_pos hj]
      norm_num
    rw [Finset.sum_congr rfl hterm, Finset.sum_const, Finset.card_range]
    simp [nsmul_eq_mul]
  · rw [if_neg hk0]
    have hterm : ∀ j ∈ Finset.range m,
        (List.replicate m (Complex.ofReal a)).getD j 0 *
          Complex.exp (-(2 * Real.pi * Complex.I) * ((j * k : ℕ) : ℂ) / (m : ℂ)) =
        (a : ℂ) * Complex.exp (-(2 * Real.pi * Complex.I) * (k : ℂ) / (m : ℂ)) ^ j := by
      intro j hj
      rw [Finset.mem_range] at hj
      rw [getD_replicate, if_pos hj, ← Complex.exp_nat_mul]
      congr 2
      push_cast
      ring
    rw [Finset.sum_congr rfl hterm, ← Finset.mul_sum]
    rw [geom_sum_eq (root_of_unity_ne_one m k (by omega) hk) m,
      root_of_unity_pow m k (by omega)]
    simp

theorem getD_take {α : Type} (d : α) :
    ∀ (l : List α) (n i : ℕ), i < n → (l.take n).getD i d = l.getD i d := by
  intro l
  induction l with
  | nil => intro n i h; simp
  | cons a l ih =>
    intro n i h
    obtain ⟨m, rfl⟩ : ∃ m, n = m + 1 := ⟨n - 1, by omega⟩
    cases i with
    | zero => rfl
    | succ i =>
      simp only [List.take_succ_cons, List.getD_cons_succ]
      exact ih m i (by omega)

theorem getD_drop {α : Type} (d : α) :
    ∀ (l : List α) (n i : ℕ), (l.drop n).getD i d = l.getD (n + i) d := by
  intro l
  induction l with
  | nil => intro n i; simp
  | cons a l ih =>
    intro n i
    cases n with
    | zero => simp
    | succ n =>
      rw [List.drop_succ_cons, ih n i, show n + 1 + i = (n + i) + 1 by omega,
        List.getD_cons_succ]

theorem mirror_extend_replicate (n : ℕ) (a : ℝ) :
    (mirror_extend (List.replicate n a)).map Complex.ofReal =
      List.replicate (3 * n) (Complex.ofReal a) := by
  rw [mirror_extend, List.reverse_replicate, ← List.replicate_add, ← List.replicate_add,
    List.map_replicate]
  congr 1
  omega

theorem filtered_replicate_getD (n : ℕ) (a : ℝ) (s k : ℕ) (hs : 1 ≤ s)
    (hk : k < 3 * n) :
    (filter_spectrum s (double_middle
        (fft ((mirror_extend (List.replicate n a)).map Complex.ofReal)))).getD k 0 =
      if k = 0 then ((3 * n : ℕ) : ℂ) * a else 0 := by
  rw [mirror_extend_replicate]
  rw [filter_spectrum_getD, double_middle_length, fft_length, List.length_replicate]
  rw [double_middle_getD, fft_length, List.length_replicate]
  by_cases hk0 : k = 0
  · subst hk0
    rw [if_neg (by omega), if_neg (by omega), fft_replicate_getD (3 * n) a 0 (by omega),
      if_pos rfl]
  · rw [fft_replicate_getD (3 * n) a k hk, if_neg hk0]
    simp

theorem ifft_filtered_replicate_getD (n : ℕ) (a : ℝ) (s t : ℕ) (hs : 1 ≤ s)
    (hn : 1 ≤ n) (ht : t < 3 * n) :
    (ifft (filter_spectrum s (double_middle
        (fft ((mirror_extend (List.replicate n a)).map Complex.ofReal))))).getD t 0 =
      (a : ℂ) := by
  have hLlen : (filter_spectrum s (double_middle
      (fft ((mirror_extend (List.replicate n a)).map Complex.ofReal)))).length = 3 * n := by
    rw [filter_spectrum_length, double_middle_length, fft_length, List.length_map,
      mirror_extend_length, List.length_replicate]
  rw [ifft_getD _ t (by omega), hLlen]
  have hsum : ∑ k ∈ Finset.range (3 * n),
      (filter_spectrum s (double_middle
        (fft ((mirror_extend (List.replicate n a)).map Complex.ofReal)))).getD k 0 *
        Complex.exp ((2 * Real.pi * Complex.I) * ((k * t : ℕ) : ℂ) / ((3 * n : ℕ) : ℂ)) =
      ((3 * n : ℕ) : ℂ) * a := by
    rw [Finset.sum_eq_single_of_mem 0 (Finset.mem_range.mpr (by omega))]
    · rw [filtered_replicate_getD n a s 0 hs (by omega), if_pos rfl]
      norm_num
    · intro b hb hb0
      rw [filtered_replicate_getD n a s b hs (Finset.mem_range.mp hb), if_neg hb0,
        zero_mul]
  rw [hsum]
  have h3n : ((3 * n : ℕ) : ℂ) ≠ 0 := Nat.cast_ne_zero.mpr (by omega)
  push_cast
  push_cast at h3n
  exact mul_div_cancel_left₀ _ h3n

/-- A constant row is pure DC: whenever the stop scan succeeds, the waviness
row equals the primary row. -/
theorem waviness_of_stop_replicate (n : ℕ) (a : ℝ) (s : ℕ) (hs : 1 ≤ s)
    (hn : 1 ≤ n) :
    waviness_of_stop (List.replicate n a) s = List.replicate n a := by
  apply List.ext_getElem
  · rw [waviness_of_stop_length, List.length_replicate]
  · intro i h1 h2
    rw [← List.getD_eq_getElem _ 0 h1, ← List.getD_eq_getElem _ 0 h2]
    have hi : i < n := by
      rw [waviness_of_stop_length, List.length_replicate] at h1
      exact h1
    rw [waviness_of_stop]
    simp only [List.length_replicate]
    rw [getD_take _ _ _ _ hi, getD_drop]
    have hlen : (ifft (filter_spectrum s (double_middle
        (fft ((mirror_extend (List.replicate n a)).map Complex.ofReal))))).length = 3 * n := by
      rw [ifft_length, filter_spectrum_length, double_middle_length, fft_length,
        List.length_map, mirror_extend_length, List.length_replicate]
    rw [getD_map Complex.re _ _ 0 0 (by omega)]
    rw [ifft_filtered_replicate_getD n a s (n + i) hs hn (by omega)]
    rw [getD_replicate, if_pos hi]
    exact Complex.ofReal_re a

/-- C2 (amended): the spec's scenario must use an admissible cutoff.  With
the constant row `[5]*8`, sample width 100 and cutoff 86 (stop index 7,
since `600/7 ≤ 86`), the decomposition produces Waviness `[5]*8`, Roughness
`[0]*8`, `Wa = 5` and `Ra = 0` for that row; with the spec's cutoff 80 the
filter instead fails (see the counterexample). -/
theorem C2_amended_constant_row :
    parse_waviness_row 86 100 (List.replicate 8 (5 : ℝ)) =
      some (List.replicate 8 (5 : ℝ)) ∧
    parse_roughness_row 86 100 (List.replicate 8 (5 : ℝ)) =
      some (List.replicate 8 (0 : ℝ)) ∧
    Wa_row 86 100 (List.replicate 8 (5 : ℝ)) = some 5 ∧
    Ra_row 86 100 (List.replicate 8 (5 : ℝ)) = some 0 := by
  have hfs : find_stop (List.replicate 8 (5 : ℝ)).length 100 86 = some 7 := by
    norm_num [find_stop, find_stop_aux]
  have h1 : parse_waviness_row 86 100 (List.replicate 8 (5 : ℝ)) =
      some (List.replicate 8 (5 : ℝ)) := by
    rw [parse_waviness_row, hfs, Option.map_some',
      waviness_of_stop_replicate 8 5 7 (by norm_num) (by norm_num)]
  have hzip : List.zipWith (fun a b => a - b) (List.replicate 8 (5 : ℝ))
      (List.replicate 8 (5 : ℝ)) = List.replicate 8 (0 : ℝ) := by
    rw [List.zipWith_replicate]
    norm_num
  have h2 : parse_roughness_row 86 100 (List.replicate 8 (5 : ℝ)) =
      some (List.replicate 8 (0 : ℝ)) := by
    rw [parse_roughness_row, h1, Option.map_some', hzip]
  refine ⟨h1, h2, ?_, ?_⟩
  · rw [Wa_row, h1, Option.map_some']
    congr 1
    rw [List.map_replicate, List.sum_replicate, List.length_replicate]
    norm_num
  · rw [Ra_row, h2, Option.map_some']
    congr 1
    rw [List.map_replicate, List.sum_replicate, List.length_replicate]
    norm_num

/-! ### A twelfth root of unity and the spectrum of the row `[1,0,0,0]`

The decomposition of the concrete row `[1, 0, 0, 0]` (sample width 1) is
computed exactly: the padded sequence has length 12, so every transform
term is a power of `xi12 = exp(2*pi*I/12)`. -/

noncomputable def xi12 : ℂ := Complex.exp (2 * Real.pi * Complex.I / 12)

theorem xi12_pow_12 : xi12 ^ 12 = 1 := by
  rw [xi12, ← Complex.exp_nat_mul]
  have h : ((12 : ℕ) : ℂ) * (2 * Real.pi * Complex.I / 12) =
      ((1 : ℤ) : ℂ) * (2 * Real.pi * Complex.I) := by
    push_cast
    ring
  rw [h, Complex.exp_int_mul_two_pi_mul_I]

theorem xi12_pow_mod (e : ℕ) : xi12 ^ e = xi12 ^ (e % 12) := by
  conv_lhs => rw [show e = 12 * (e / 12) + e % 12 from (Nat.div_add_mod e 12).symm]
  rw [pow_add, pow_mul, xi12_pow_12, one_pow, one_mul]

theorem exp_neg_nat_two_pi (a : ℕ) :
    Complex.exp (-((a : ℕ) : ℂ) * (2 * Real.pi * Complex.I)) = 1 := by
  have h := Complex.exp_int_mul_two_pi_mul_I (-(a : ℤ))
  push_cast at h
  exact h

theorem fft_term (a : ℕ) :
    Complex.exp (-(2 * Real.pi * Complex.I) * ((a : ℕ) : ℂ) / ((12 : ℕ) : ℂ)) =
      xi12 ^ ((11 * a) % 12) := by
  rw [← xi12_pow_mod]
  calc Complex.exp (-(2 * Real.pi * Complex.I) * ((a : ℕ) : ℂ) / ((12 : ℕ) : ℂ))
      = Complex.exp (((11 * a : ℕ) : ℂ) * (2 * Real.pi * Complex.I / 12)) *
          Complex.exp (-((a : ℕ) : ℂ) * (2 * Real.pi * Complex.I)) := by
        rw [← Complex.exp_add]
        congr 1
        push_cast
        ring
    _ = xi12 ^ (11 * a) := by
        rw [exp_neg_nat_two_pi, mul_one, xi12, ← Complex.exp_nat_mul]

theorem ifft_term (a : ℕ) :
    Complex.exp ((2 * Real.pi * Complex.I) * ((a : ℕ) : ℂ) / ((12 : ℕ) : ℂ)) =
      xi12 ^ (a % 12) := by
  rw [← xi12_pow_mod, xi12, ← Complex.exp_nat_mul]
  congr 1
  push_cast
  ring

theorem xi12_pow_re (k : ℕ) : (xi12 ^ k).re = Real.cos ((k : ℝ) * Real.pi / 6) := by
  rw [xi12, ← Complex.exp_nat_mul]
  have h : ((k : ℕ) : ℂ) * (2 * Real.pi * Complex.I / 12) =
      (((k : ℝ) * Real.pi / 6 : ℝ) : ℂ) * Complex.I := by
    push_cast
    ring
  rw [h, Complex.exp_ofReal_mul_I_re]

theorem xi12_pow_im (k : ℕ) : (xi12 ^ k).im = Real.sin ((k : ℝ) * Real.pi / 6) := by
  rw [xi12, ← Complex.exp_nat_mul]
  have h : ((k : ℕ) : ℂ) * (2 * Real.pi * Complex.I / 12) =
      (((k : ℝ) * Real.pi / 6 : ℝ) : ℂ) * Complex.I := by
    push_cast
    ring
  rw [h, Complex.exp_ofReal_mul_I_im]

theorem xire1 : (xi12 ^ 1).re = Real.sqrt 3 / 2 := by
  rw [xi12_pow_re,
    show ((1 : ℕ) : ℝ) * Real.pi / 6 = Real.pi / 6 by push_cast; ring,
    Real.cos_pi_div_six]

theorem xiim1 : (xi12 ^ 1).im = 1 / 2 := by
  rw [xi12_pow_im,
    show ((1 : ℕ) : ℝ) * Real.pi / 6 = Real.pi / 6 by push_cast; ring,
    Real.sin_pi_div_six]

theorem xire2 : (xi12 ^ 2).re = 1 / 2 := by
  rw [xi12_pow_re,
    show ((2 : ℕ) : ℝ) * Real.pi / 6 = Real.pi / 3 by push_cast; ring,
    Real.cos_pi_div_three]

theorem xiim2 : (xi12 ^ 2).im = Real.sqrt 3 / 2 := by
  rw [xi12_pow_im,
    show ((2 : ℕ) : ℝ) * Real.pi / 6 = Real.pi / 3 by push_cast; ring,
    Real.sin_pi_div_three]

theorem xire3 : (xi12 ^ 3).re = 0 := by
  rw [xi12_pow_re,
    show ((3 : ℕ) : ℝ) * Real.pi / 6 = Real.pi / 2 by push_cast; ring,
    Real.cos_pi_div_two]

theorem xiim3 : (xi12 ^ 3).im = 1 := by
  rw [xi12_pow_im,
    show ((3 : ℕ) : ℝ) * Real.pi / 6 = Real.pi / 2 by push_cast; ring,
    Real.sin_pi_div_two]

theorem xire4 : (xi12 ^ 4).re = -(1 / 2) := by
  rw [xi12_pow_re,
    show ((4 : ℕ) : ℝ) * Real.pi / 6 = Real.pi - Real.pi / 3 by push_cast; ring,
    Real.cos_pi_sub,
    Real.cos_pi_div_three]

theorem xiim4 : (xi12 ^ 4).im = Real.sqrt 3 / 2 := by
  rw [xi12_pow_im,
    show ((4 : ℕ) : ℝ) * Real.pi / 6 = Real.pi - Real.pi / 3 by push_cast; ring,
    Real.sin_pi_sub,
    Real.sin_pi_div_three]

theorem xire5 : (xi12 ^ 5).re = -(Real.sqrt 3 / 2) := by
  rw [xi12_pow_re,
    show ((5 : ℕ) : ℝ) * Real.pi / 6 = Real.pi - Real.pi / 6 by push_cast; ring,
    Real.cos_pi_sub,
    Real.cos_pi_div_six]

theorem xiim5 : (xi12 ^ 5).im = 1 / 2 := by
  rw [xi12_pow_im,
    show ((5 : ℕ) : ℝ) * Real.pi / 6 = Real.pi - Real.pi / 6 by push_cast; ring,
    Real.sin_pi_sub,
    Real.sin_pi_div_six]

theorem xire6 : (xi12 ^ 6).re = -1 := by
  rw [xi12_pow_re,
    show ((6 : ℕ) : ℝ) * Real.pi / 6 = Real.pi by push_cast; ring,
    Real.cos_pi]

theorem xiim6 : (xi12 ^ 6).im = 0 := by
  rw [xi12_pow_im,
    show ((6 : ℕ) : ℝ) * Real.pi / 6 = Real.pi by push_cast; ring,
    Real.sin_pi]

theorem xire7 : (xi12 ^ 7).re = -(Real.sqrt 3 / 2) := by
  rw [xi12_pow_re,
    show ((7 : ℕ) : ℝ) * Real.pi / 6 = 2 * Real.pi - 5 * Real.pi / 6 by push_cast; ring,
    Real.cos_two_pi_sub,
    show (5 * Real.pi / 6 : ℝ) = Real.pi - Real.pi / 6 by ring,
    Real.cos_pi_sub,
    Real.cos_pi_div_six]

theorem xiim7 : (xi12 ^ 7).im = -(1 / 2) := by
  rw [xi12_pow_im,
    show ((7 : ℕ) : ℝ) * Real.pi / 6 = 2 * Real.pi - 5 * Real.pi / 6 by push_cast; ring,
    Real.sin_two_pi_sub,
    show (5 * Real.pi / 6 : ℝ) = Real.pi - Real.pi / 6 by ring,
    Real.sin_pi_sub,
    Real.sin_pi_div_six]

theorem xire8 : (xi12 ^ 8).re = -(1 / 2) := by
  rw [xi12_pow_re,
    show ((8 : ℕ) : ℝ) * Real.pi / 6 = 2 * Real.pi - 4 * Real.pi / 6 by push_cast; ring,
    Real.cos_two_pi_sub,
    show (4 * Real.pi / 6 : ℝ) = Real.pi - Real.pi / 3 by ring,
    Real.cos_pi_sub,
    Real.cos_pi_div_three]

theorem xiim8 : (xi12 ^ 8).im = -(Real.sqrt 3 / 2) := by
  rw [xi12_pow_im,
    show ((8 : ℕ) : ℝ) * Real.pi / 6 = 2 * Real.pi - 4 * Real.pi / 6 by push_cast; ring,
    Real.sin_two_pi_sub,
    show (4 * Real.pi / 6 : ℝ) = Real.pi - Real.pi / 3 by ring,
    Real.sin_pi_sub,
    Real.sin_pi_div_three]

theorem xire9 : (xi12 ^ 9).re = 0 := by
  rw [xi12_pow_re,
    show ((9 : ℕ) : ℝ) * Real.pi / 6 = 2 * Real.pi - 3 * Real.pi / 6 by push_cast; ring,
    Real.cos_two_pi_sub,
    show (3 * Real.pi / 6 : ℝ) = Real.pi / 2 by ring,
    Real.cos_pi_div_two]

theorem xiim9 : (xi12 ^ 9).im = -1 := by
  rw [xi12_pow_im,
    show ((9 : ℕ) : ℝ) * Real.pi / 6 = 2 * Real.pi - 3 * Real.pi / 6 by push_cast; ring,
    Real.sin_two_pi_sub,
    show (3 * Real.pi / 6 : ℝ) = Real.pi / 2 by ring,
    Real.sin_pi_div_two]

theorem xire10 : (xi12 ^ 10).re = 1 / 2 := by
  rw [xi12_pow_re,
    show ((10 : ℕ) : ℝ) * Real.pi / 6 = 2 * Real.pi - 2 * Real.pi / 6 by push_cast; ring,
    Real.cos_two_pi_sub,
    show (2 * Real.pi / 6 : ℝ) = Real.pi / 3 by ring,
    Real.cos_pi_div_three]

theorem xiim10 : (xi12 ^ 10).im = -(Real.sqrt 3 / 2) := by
  rw [xi12_pow_im,
    show ((10 : ℕ) : ℝ) * Real.pi / 6 = 2 * Real.pi - 2 * Real.pi / 6 by push_cast; ring,
    Real.sin_two_pi_sub,
    show (2 * Real.pi / 6 : ℝ) = Real.pi / 3 by ring,
    Real.sin_pi_div_three]

theorem xire11 : (xi12 ^ 11).re = Real.sqrt 3 / 2 := by
  rw [xi12_pow_re,
    show ((11 : ℕ) : ℝ) * Real.pi / 6 = 2 * Real.pi - 1 * Real.pi / 6 by push_cast; ring,
    Real.cos_two_pi_sub,
    show (1 * Real.pi / 6 : ℝ) = Real.pi / 6 by ring,
    Real.cos_pi_div_six]

theorem xiim11 : (xi12 ^ 11).im = -(1 / 2) := by
  rw [xi12_pow_im,
    show ((11 : ℕ) : ℝ) * Real.pi / 6 = 2 * Real.pi - 1 * Real.pi / 6 by push_cast; ring,
    Real.sin_two_pi_sub,
    show (1 * Real.pi / 6 : ℝ) = Real.pi / 6 by ring,
    Real.sin_pi_div_six]

theorem xire_one : xi12.re = Real.sqrt 3 / 2 := by
  have h := xire1
  rw [pow_one] at h
  exact h

theorem xiim_one : xi12.im = 1 / 2 := by
  have h := xiim1
  rw [pow_one] at h
  exact h

noncomputable def x1000 : List ℂ := (mirror_extend [1, 0, 0, 0]).map Complex.ofReal

theorem x1000_eq : x1000 = [0, 0, 0, 1, 1, 0, 0, 0, 0, 0, 0, 1] := by
  simp [x1000, mirror_extend]

theorem x1000_length : x1000.length = 12 := by
  rw [x1000_eq]
  rfl

theorem x1000_getD (j : ℕ) :
    x1000.getD j 0 = if j = 3 ∨ j = 4 ∨ j = 11 then 1 else 0 := by
  rw [x1000_eq]
  by_cases h : j < 12
  · interval_cases j <;> rfl
  · rw [List.getD_eq_default _ _ (by simp; omega), if_neg (by omega)]

theorem F0_eq : (fft x1000).getD 0 0 = 3 := by
  rw [fft_getD x1000 0 (by rw [x1000_length]; norm_num), x1000_length]
  simp only [Finset.sum_range_succ, Finset.sum_range_zero]
  rw [fft_term (0 * 0)]
  simp only [x1000_getD]
  norm_num

theorem F1_eq : (fft x1000).getD 1 0 = xi12 ^ 9 + xi12 ^ 8 + xi12 := by
  rw [fft_getD x1000 1 (by rw [x1000_length]; norm_num), x1000_length]
  simp only [Finset.sum_range_succ, Finset.sum_range_zero]
  rw [fft_term (0 * 1),
    fft_term (1 * 1),
    fft_term (2 * 1),
    fft_term (3 * 1),
    fft_term (4 * 1),
    fft_term (5 * 1),
    fft_term (6 * 1),
    fft_term (7 * 1),
    fft_term (8 * 1),
    fft_term (9 * 1),
    fft_term (10 * 1),
    fft_term (11 * 1)]
  simp only [x1000_getD]
  norm_num

theorem F11_eq : (fft x1000).getD 11 0 = xi12 ^ 3 + xi12 ^ 4 + xi12 ^ 11 := by
  rw [fft_getD x1000 11 (by rw [x1000_length]; norm_num), x1000_length]
  simp only [Finset.sum_range_succ, Finset.sum_range_zero]
  rw [fft_term (0 * 11),
    fft_term (1 * 11),
    fft_term (2 * 11),
    fft_term (3 * 11),
    fft_term (4 * 11),
    fft_term (5 * 11),
    fft_term (6 * 11),
    fft_term (7 * 11),
    fft_term (8 * 11),
    fft_term (9 * 11),
    fft_term (10 * 11),
    fft_term (11 * 11)]
  simp only [x1000_getD]
  norm_num

theorem specA_length :
    (filter_spectrum 1 (double_middle (fft x1000))).length = 12 := by
  rw [filter_spectrum_length, double_middle_length, fft_length, x1000_length]

theorem specB_length :
    (filter_spectrum 2 (double_middle (fft x1000))).length = 12 := by
  rw [filter_spectrum_length, double_middle_length, fft_length, x1000_length]

theorem specA_getD (k : ℕ) (hk : k < 12) :
    (filter_spectrum 1 (double_middle (fft x1000))).getD k 0 =
      if k = 0 then 3 else if k = 11 then xi12 ^ 3 + xi12 ^ 4 + xi12 ^ 11 else 0 := by
  rw [filter_spectrum_getD, double_middle_getD, double_middle_length, fft_length,
    x1000_length]
  by_cases hk0 : k = 0
  · subst hk0
    rw [if_neg (by norm_num), if_neg (by norm_num), F0_eq, if_pos rfl]
  by_cases hk11 : k = 11
  · subst hk11
    rw [if_neg (by norm_num), if_neg (by norm_num), F11_eq, if_neg (by norm_num),
      if_pos rfl]
  · rw [if_pos ⟨by omega, by omega⟩, if_neg hk0, if_neg hk11]

theorem specB_getD (k : ℕ) (hk : k < 12) :
    (filter_spectrum 2 (double_middle (fft x1000))).getD k 0 =
      if k = 0 then 3 else if k = 1 then 2 * (xi12 ^ 9 + xi12 ^ 8 + xi12)
        else if k = 11 then xi12 ^ 3 + xi12 ^ 4 + xi12 ^ 11 else 0 := by
  rw [filter_spectrum_getD, double_middle_getD, double_middle_length, fft_length,
    x1000_length]
  by_cases hk0 : k = 0
  · subst hk0
    rw [if_neg (by norm_num), if_neg (by norm_num), F0_eq, if_pos rfl]
  by_cases hk1 : k = 1
  · subst hk1
    rw [if_neg (by norm_num), if_pos (by norm_num), F1_eq, if_neg (by norm_num),
      if_pos rfl]
  by_cases hk11 : k = 11
  · subst hk11
    rw [if_neg (by norm_num), if_neg (by norm_num), F11_eq, if_neg (by norm_num),
      if_neg (by norm_num), if_pos rfl]
  · rw [if_pos ⟨by omega, by omega⟩, if_neg hk0, if_neg hk1, if_neg hk11]

theorem entryA4 :
    ((ifft (filter_spectrum 1 (double_middle (fft x1000)))).getD 4 0).re = 1 / 3 := by
  rw [ifft_getD _ 4 (by rw [specA_length]; norm_num), specA_length]
  simp only [Finset.sum_range_succ, Finset.sum_range_zero]
  rw [ifft_term (0 * 4),
    ifft_term (1 * 4),
    ifft_term (2 * 4),
    ifft_term (3 * 4),
    ifft_term (4 * 4),
    ifft_term (5 * 4),
    ifft_term (6 * 4),
    ifft_term (7 * 4),
    ifft_term (8 * 4),
    ifft_term (9 * 4),
    ifft_term (10 * 4),
    ifft_term (11 * 4)]
  rw [specA_getD 0 (by norm_num),
    specA_getD 1 (by norm_num),
    specA_getD 2 (by norm_num),
    specA_getD 3 (by norm_num),
    specA_getD 4 (by norm_num),
    specA_getD 5 (by norm_num),
    specA_getD 6 (by norm_num),
    specA_getD 7 (by norm_num),
    specA_getD 8 (by norm_num),
    specA_getD 9 (by norm_num),
    specA_getD 10 (by norm_num),
    specA_getD 11 (by norm_num)]
  norm_num
  simp only [xire1, xire2, xire3, xire4, xire5, xire6, xire7, xire8, xire9, xire10, xire11, xiim1, xiim2, xiim3, xiim4, xiim5, xiim6, xiim7, xiim8, xiim9, xiim10, xiim11, xire_one, xiim_one]
  have hs : Real.sqrt 3 ^ 2 = 3 := Real.sq_sqrt (by norm_num)
  ring_nf
  try rw [hs]
  try ring_nf
  try norm_num

theorem entryA5 :
    ((ifft (filter_spectrum 1 (double_middle (fft x1000)))).getD 5 0).re = (5 + Real.sqrt 3) / 24 := by
  rw [ifft_getD _ 5 (by rw [specA_length]; norm_num), specA_length]
  simp only [Finset.sum_range_succ, Finset.sum_range_zero]
  rw [ifft_term (0 * 5),
    ifft_term (1 * 5),
    ifft_term (2 * 5),
    ifft_term (3 * 5),
    ifft_term (4 * 5),
    ifft_term (5 * 5),
    ifft_term (6 * 5),
    ifft_term (7 * 5),
    ifft_term (8 * 5),
    ifft_term (9 * 5),
    ifft_term (10 * 5),
    ifft_term (11 * 5)]
  rw [specA_getD 0 (by norm_num),
    specA_getD 1 (by norm_num),
    specA_getD 2 (by norm_num),
    specA_getD 3 (by norm_num),
    specA_getD 4 (by norm_num),
    specA_getD 5 (by norm_num),
    specA_getD 6 (by norm_num),
    specA_getD 7 (by norm_num),
    specA_getD 8 (by norm_num),
    specA_getD 9 (by norm_num),
    specA_getD 10 (by norm_num),
    specA_getD 11 (by norm_num)]
  norm_num
  simp only [xire1, xire2, xire3, xire4, xire5, xire6, xire7, xire8, xire9, xire10, xire11, xiim1, xiim2, xiim3, xiim4, xiim5, xiim6, xiim7, xiim8, xiim9, xiim10, xiim11, xire_one, xiim_one]
  have hs : Real.sqrt 3 ^ 2 = 3 := Real.sq_sqrt (by norm_num)
  ring_nf
  try rw [hs]
  try ring_nf
  try norm_num

theorem entryA6 :
    ((ifft (filter_spectrum 1 (double_middle (fft x1000)))).getD 6 0).re = (7 - Real.sqrt 3) / 24 := by
  rw [ifft_getD _ 6 (by rw [specA_length]; norm_num), specA_length]
  simp only [Finset.sum_range_succ, Finset.sum_range_zero]
  rw [ifft_term (0 * 6),
    ifft_term (1 * 6),
    ifft_term (2 * 6),
    ifft_term (3 * 6),
    ifft_term (4 * 6),
    ifft_term (5 * 6),
    ifft_term (6 * 6),
    ifft_term (7 * 6),
    ifft_term (8 * 6),
    ifft_term (9 * 6),
    ifft_term (10 * 6),
    ifft_term (11 * 6)]
  rw [specA_getD 0 (by norm_num),
    specA_getD 1 (by norm_num),
    specA_getD 2 (by norm_num),
    specA_getD 3 (by norm_num),
    specA_getD 4 (by norm_num),
    specA_getD 5 (by norm_num),
    specA_getD 6 (by norm_num),
    specA_getD 7 (by norm_num),
    specA_getD 8 (by norm_num),
    specA_getD 9 (by norm_num),
    specA_getD 10 (by norm_num),
    specA_getD 11 (by norm_num)]
  norm_num
  simp only [xire1, xire2, xire3, xire4, xire5, xire6, xire7, xire8, xire9, xire10, xire11, xiim1, xiim2, xiim3, xiim4, xiim5, xiim6, xiim7, xiim8, xiim9, xiim10, xiim11, xire_one, xiim_one]
  have hs : Real.sqrt 3 ^ 2 = 3 := Real.sq_sqrt (by norm_num)
  ring_nf
  try rw [hs]
  try ring_nf
  try norm_num

theorem entryA7 :
    ((ifft (filter_spectrum 1 (double_middle (fft x1000)))).getD 7 0).re = 1 / 6 := by
  rw [ifft_getD _ 7 (by rw [specA_length]; norm_num), specA_length]
  simp only [Finset.sum_range_succ, Finset.sum_range_zero]
  rw [ifft_term (0 * 7),
    ifft_term (1 * 7),
    ifft_term (2 * 7),
    ifft_term (3 * 7),
    ifft_term (4 * 7),
    ifft_term (5 * 7),
    ifft_term (6 * 7),
    ifft_term (7 * 7),
    ifft_term (8 * 7),
    ifft_term (9 * 7),
    ifft_term (10 * 7),
    ifft_term (11 * 7)]
  rw [specA_getD 0 (by norm_num),
    specA_getD 1 (by norm_num),
    specA_getD 2 (by norm_num),
    specA_getD 3 (by norm_num),
    specA_getD 4 (by norm_num),
    specA_getD 5 (by norm_num),
    specA_getD 6 (by norm_num),
    specA_getD 7 (by norm_num),
    specA_getD 8 (by norm_num),
    specA_getD 9 (by norm_num),
    specA_getD 10 (by norm_num),
    specA_getD 11 (by norm_num)]
  norm_num
  simp only [xire1, xire2, xire3, xire4, xire5, xire6, xire7, xire8, xire9, xire10, xire11, xiim1, xiim2, xiim3, xiim4, xiim5, xiim6, xiim7, xiim8, xiim9, xiim10, xiim11, xire_one, xiim_one]
  have hs : Real.sqrt 3 ^ 2 = 3 := Real.sq_sqrt (by norm_num)
  ring_nf
  try rw [hs]
  try ring_nf
  try norm_num

theorem entryB4 :
    ((ifft (filter_spectrum 2 (double_middle (fft x1000)))).getD 4 0).re = 1 / 2 := by
  rw [ifft_getD _ 4 (by rw [specB_length]; norm_num), specB_length]
  simp only [Finset.sum_range_succ, Finset.sum_range_zero]
  rw [ifft_term (0 * 4),
    ifft_term (1 * 4),
    ifft_term (2 * 4),
    ifft_term (3 * 4),
    ifft_term (4 * 4),
    ifft_term (5 * 4),
    ifft_term (6 * 4),
    ifft_term (7 * 4),
    ifft_term (8 * 4),
    ifft_term (9 * 4),
    ifft_term (10 * 4),
    ifft_term (11 * 4)]
  rw [specB_getD 0 (by norm_num),
    specB_getD 1 (by norm_num),
    specB_getD 2 (by norm_num),
    specB_getD 3 (by norm_num),
    specB_getD 4 (by norm_num),
    specB_getD 5 (by norm_num),
    specB_getD 6 (by norm_num),
    specB_getD 7 (by norm_num),
    specB_getD 8 (by norm_num),
    specB_getD 9 (by norm_num),
    specB_getD 10 (by norm_num),
    specB_getD 11 (by norm_num)]
  norm_num
  simp only [xire1, xire2, xire3, xire4, xire5, xire6, xire7, xire8, xire9, xire10, xire11, xiim1, xiim2, xiim3, xiim4, xiim5, xiim6, xiim7, xiim8, xiim9, xiim10, xiim11, xire_one, xiim_one]
  have hs : Real.sqrt 3 ^ 2 = 3 := Real.sq_sqrt (by norm_num)
  ring_nf
  try rw [hs]
  try ring_nf
  try norm_num

theorem entryB5 :
    ((ifft (filter_spectrum 2 (double_middle (fft x1000)))).getD 5 0).re = (1 + Real.sqrt 3) / 8 := by
  rw [ifft_getD _ 5 (by rw [specB_length]; norm_num), specB_length]
  simp only [Finset.sum_range_succ, Finset.sum_range_zero]
  rw [ifft_term (0 * 5),
    ifft_term (1 * 5),
    ifft_term (2 * 5),
    ifft_term (3 * 5),
    ifft_term (4 * 5),
    ifft_term (5 * 5),
    ifft_term (6 * 5),
    ifft_term (7 * 5),
    ifft_term (8 * 5),
    ifft_term (9 * 5),
    ifft_term (10 * 5),
    ifft_term (11 * 5)]
  rw [specB_getD 0 (by norm_num),
    specB_getD 1 (by norm_num),
    specB_getD 2 (by norm_num),
    specB_getD 3 (by norm_num),
    specB_getD 4 (by norm_num),
    specB_getD 5 (by norm_num),
    specB_getD 6 (by norm_num),
    specB_getD 7 (by norm_num),
    specB_getD 8 (by norm_num),
    specB_getD 9 (by norm_num),
    specB_getD 10 (by norm_num),
    specB_getD 11 (by norm_num)]
  norm_num
  simp only [xire1, xire2, xire3, xire4, xire5, xire6, xire7, xire8, xire9, xire10, xire11, xiim1, xiim2, xiim3, xiim4, xiim5, xiim6, xiim7, xiim8, xiim9, xiim10, xiim11, xire_one, xiim_one]
  have hs : Real.sqrt 3 ^ 2 = 3 := Real.sq_sqrt (by norm_num)
  ring_nf
  try rw [hs]
  try ring_nf
  try norm_num

theorem entryB6 :
    ((ifft (filter_spectrum 2 (double_middle (fft x1000)))).getD 6 0).re = (3 - Real.sqrt 3) / 8 := by
  rw [ifft_getD _ 6 (by rw [specB_length]; norm_num), specB_length]
  simp only [Finset.sum_range_succ, Finset.sum_range_zero]
  rw [ifft_term (0 * 6),
    ifft_term (1 * 6),
    ifft_term (2 * 6),
    ifft_term (3 * 6),
    ifft_term (4 * 6),
    ifft_term (5 * 6),
    ifft_term (6 * 6),
    ifft_term (7 * 6),
    ifft_term (8 * 6),
    ifft_term (9 * 6),
    ifft_term (10 * 6),
    ifft_term (11 * 6)]
  rw [specB_getD 0 (by norm_num),
    specB_getD 1 (by norm_num),
    specB_getD 2 (by norm_num),
    specB_getD 3 (by norm_num),
    specB_getD 4 (by norm_num),
    specB_getD 5 (by norm_num),
    specB_getD 6 (by norm_num),
    specB_getD 7 (by norm_num),
    specB_getD 8 (by norm_num),
    specB_getD 9 (by norm_num),
    specB_getD 10 (by norm_num),
    specB_getD 11 (by norm_num)]
  norm_num
  simp only [xire1, xire2, xire3, xire4, xire5, xire6, xire7, xire8, xire9, xire10, xire11, xiim1, xiim2, xiim3, xiim4, xiim5, xiim6, xiim7, xiim8, xiim9, xiim10, xiim11, xire_one, xiim_one]
  have hs : Real.sqrt 3 ^ 2 = 3 := Real.sq_sqrt (by norm_num)
  ring_nf
  try rw [hs]
  try ring_nf
  try norm_num

theorem entryB7 :
    ((ifft (filter_spectrum 2 (double_middle (fft x1000)))).getD 7 0).re = 0 := by
  rw [ifft_getD _ 7 (by rw [specB_length]; norm_num), specB_length]
  simp only [Finset.sum_range_succ, Finset.sum_range_zero]
  rw [ifft_term (0 * 7),
    ifft_term (1 * 7),
    ifft_term (2 * 7),
    ifft_term (3 * 7),
    ifft_term (4 * 7),
    ifft_term (5 * 7),
    ifft_term (6 * 7),
    ifft_term (7 * 7),
    ifft_term (8 * 7),
    ifft_term (9 * 7),
    ifft_term (10 * 7),
    ifft_term (11 * 7)]
  rw [specB_getD 0 (by norm_num),
    specB_getD 1 (by norm_num),
    specB_getD 2 (by norm_num),
    specB_getD 3 (by norm_num),
    specB_getD 4 (by norm_num),
    specB_getD 5 (by norm_num),
    specB_getD 6 (by norm_num),
    specB_getD 7 (by norm_num),
    specB_getD 8 (by norm_num),
    specB_getD 9 (by norm_num),
    specB_getD 10 (by norm_num),
    specB_getD 11 (by norm_num)]
  norm_num
  simp only [xire1, xire2, xire3, xire4, xire5, xire6, xire7, xire8, xire9, xire10, xire11, xiim1, xiim2, xiim3, xiim4, xiim5, xiim6, xiim7, xiim8, xiim9, xiim10, xiim11, xire_one, xiim_one]
  have hs : Real.sqrt 3 ^ 2 = 3 := Real.sq_sqrt (by norm_num)
  ring_nf
  try rw [hs]
  try ring_nf
  try norm_num

theorem wavA_eq : waviness_of_stop [1, 0, 0, 0] 1 =
    [1 / 3, (5 + Real.sqrt 3) / 24, (7 - Real.sqrt 3) / 24, 1 / 6] := by
  have hlen12 : (ifft (filter_spectrum 1 (double_middle (fft x1000)))).length = 12 := by
    rw [ifft_length, specA_length]
  apply List.ext_getElem
  · rw [waviness_of_stop_length]
    rfl
  · intro i h1 h2
    have hi : i < 4 := by
      rw [waviness_of_stop_length] at h1
      simpa using h1
    rw [← List.getD_eq_getElem _ 0 h1, ← List.getD_eq_getElem _ 0 h2]
    rw [waviness_of_stop]
    have hx : (mirror_extend ([1, 0, 0, 0] : List ℝ)).map Complex.ofReal = x1000 := rfl
    rw [hx]
    have hlen4 : ([1, 0, 0, 0] : List ℝ).length = 4 := rfl
    rw [hlen4, getD_take _ _ _ _ hi, getD_drop]
    rw [getD_map Complex.re _ _ 0 0 (by rw [hlen12]; omega)]
    interval_cases i
    · rw [show (4 + 0 : ℕ) = 4 from rfl, entryA4]
      rfl
    · rw [show (4 + 1 : ℕ) = 5 from rfl, entryA5]
      rfl
    · rw [show (4 + 2 : ℕ) = 6 from rfl, entryA6]
      rfl
    · rw [show (4 + 3 : ℕ) = 7 from rfl, entryA7]
      rfl

theorem wavB_eq : waviness_of_stop [1, 0, 0, 0] 2 =
    [1 / 2, (1 + Real.sqrt 3) / 8, (3 - Real.sqrt 3) / 8, 0] := by
  have hlen12 : (ifft (filter_spectrum 2 (double_middle (fft x1000)))).length = 12 := by
    rw [ifft_length, specB_length]
  apply List.ext_getElem
  · rw [waviness_of_stop_length]
    rfl
  · intro i h1 h2
    have hi : i < 4 := by
      rw [waviness_of_stop_length] at h1
      simpa using h1
    rw [← List.getD_eq_getElem _ 0 h1, ← List.getD_eq_getElem _ 0 h2]
    rw [waviness_of_stop]
    have hx : (mirror_extend ([1, 0, 0, 0] : List ℝ)).map Complex.ofReal = x1000 := rfl
    rw [hx]
    have hlen4 : ([1, 0, 0, 0] : List ℝ).length = 4 := rfl
    rw [hlen4, getD_take _ _ _ _ hi, getD_drop]
    rw [getD_map Complex.re _ _ 0 0 (by rw [hlen12]; omega)]
    interval_cases i
    · rw [show (4 + 0 : ℕ) = 4 from rfl, entryB4]
      rfl
    · rw [show (4 + 1 : ℕ) = 5 from rfl, entryB5]
      rfl
    · rw [show (4 + 2 : ℕ) = 6 from rfl, entryB6]
      rfl
    · rw [show (4 + 3 : ℕ) = 7 from rfl, entryB7]
      rfl

theorem pwA : parse_waviness_row 6 1 [1, 0, 0, 0] =
    some (waviness_of_stop [1, 0, 0, 0] 1) := by
  rw [parse_waviness_row]
  have hfs : find_stop ([1, 0, 0, 0] : List ℝ).length 1 6 = some 1 := by
    norm_num [find_stop, find_stop_aux]
  rw [hfs]
  rfl

theorem pwB : parse_waviness_row 3 1 [1, 0, 0, 0] =
    some (waviness_of_stop [1, 0, 0, 0] 2) := by
  rw [parse_waviness_row]
  have hfs : find_stop ([1, 0, 0, 0] : List ℝ).length 1 3 = some 2 := by
    norm_num [find_stop, find_stop_aux]
  rw [hfs]
  rfl

theorem sqrt3_le_two : Real.sqrt 3 ≤ 2 := by
  nlinarith [Real.sq_sqrt (show (0 : ℝ) ≤ 3 by norm_num), Real.sqrt_nonneg 3]

theorem one_lt_sqrt3 : 1 < Real.sqrt 3 := by
  nlinarith [Real.sq_sqrt (show (0 : ℝ) ≤ 3 by norm_num), Real.sqrt_nonneg 3]

theorem Ra_A : Ra_row 6 1 [1, 0, 0, 0] = some (1 / 3) := by
  rw [Ra_row, parse_roughness_row, pwA, Option.map_some', Option.map_some', wavA_eq]
  congr 1
  have hs0 : 0 ≤ Real.sqrt 3 := Real.sqrt_nonneg 3
  have hs1 : Real.sqrt 3 ≤ 2 := sqrt3_le_two
  simp only [List.zipWith_cons_cons, List.zipWith_nil_right, List.map_cons, List.map_nil,
    List.sum_cons, List.sum_nil, List.length_cons, List.length_nil]
  rw [abs_of_nonneg (show (0 : ℝ) ≤ 1 - 1 / 3 by norm_num),
    abs_of_nonpos (show (0 : ℝ) - (5 + Real.sqrt 3) / 24 ≤ 0 by linarith),
    abs_of_nonpos (show (0 : ℝ) - (7 - Real.sqrt 3) / 24 ≤ 0 by linarith),
    abs_of_nonpos (show (0 : ℝ) - 1 / 6 ≤ 0 by norm_num)]
  push_cast
  ring_nf

theorem Ra_B : Ra_row 3 1 [1, 0, 0, 0] = some (1 / 4) := by
  rw [Ra_row, parse_roughness_row, pwB, Option.map_some', Option.map_some', wavB_eq]
  congr 1
  have hs0 : 0 ≤ Real.sqrt 3 := Real.sqrt_nonneg 3
  have hs1 : Real.sqrt 3 ≤ 2 := sqrt3_le_two
  simp only [List.zipWith_cons_cons, List.zipWith_nil_right, List.map_cons, List.map_nil,
    List.sum_cons, List.sum_nil, List.length_cons, List.length_nil]
  rw [abs_of_nonneg (show (0 : ℝ) ≤ 1 - 1 / 2 by norm_num),
    abs_of_nonpos (show (0 : ℝ) - (1 + Real.sqrt 3) / 8 ≤ 0 by linarith),
    abs_of_nonpos (show (0 : ℝ) - (3 - Real.sqrt 3) / 8 ≤ 0 by linarith),
    abs_of_nonpos (show (0 : ℝ) - 0 ≤ 0 by norm_num)]
  push_cast
  ring_nf

/-- C5 counterexample: for the fixed row `[1,0,0,0]` and sample width 1, the
cutoffs 3 < 6 both succeed (stop indices 2 and 1), yet the per-row roughness
metric rises from `Ra = 1/4` at cutoff 3 to `Ra = 1/3` at cutoff 6 — the
claimed non-increase `Ra(6) ≤ Ra(3)` fails. -/
theorem C5_counterexample :
    (3 : ℝ) < 6 ∧
    Ra_row 3 1 ([1, 0, 0, 0] : List ℝ) = some (1 / 4) ∧
    Ra_row 6 1 ([1, 0, 0, 0] : List ℝ) = some (1 / 3) ∧
    ¬((1 / 3 : ℝ) ≤ 1 / 4) :=
  ⟨by norm_num, Ra_B, Ra_A, by norm_num⟩

/-- C9 counterexample: for the row `[1,0,0,0]` with width 1 and cutoff 6 the
stop index is 1, yet the filtered spectrum is not "DC only": the final entry
(index 11 ≠ 0) keeps its pre-filter value, which is nonzero. -/
theorem C9_counterexample :
    find_stop (([1, 0, 0, 0] : List ℝ)).length 1 6 = some 1 ∧
    (11 : ℕ) ≠ 0 ∧
    (filter_spectrum 1 (double_middle
      (fft ((mirror_extend ([1, 0, 0, 0] : List ℝ)).map Complex.ofReal)))).getD 11 0 ≠ 0 := by
  refine ⟨by norm_num [find_stop, find_stop_aux], by norm_num, ?_⟩
  have hx : (mirror_extend ([1, 0, 0, 0] : List ℝ)).map Complex.ofReal = x1000 := rfl
  rw [hx, specA_getD 11 (by norm_num), if_neg (by norm_num), if_pos rfl]
  intro hzero
  have hre := congrArg Complex.re hzero
  simp only [Complex.add_re, Complex.zero_re, xire3, xire4, xire11] at hre
  have hgt : 1 < Real.sqrt 3 := one_lt_sqrt3
  linarith

end SurfaceSpec